/-
Verification of the carbon-footprint-tracker backend core
(`backend/main.go`): the emission calculator `computeEmission` with its
helpers `round2` / `mathRound` / `roundMap`, the record-creation path
`createActivity`, and the `summary` aggregator.

Modelling conventions (shallow embedding):
* Go `float64` values are modelled as exact rationals (`ℚ`); IEEE-754
  rounding error and `int64` overflow in `mathRound` are outside the model.
* Go `time.Time` values are modelled as rational day numbers: the integer
  part is the calendar day, the fractional part the time of day.  A date
  parsed from a `YYYY-MM-DD` string is an integer (midnight); `time.Now()`
  may carry a fractional part.  `Format("2006-01-02")` becomes `⌊·⌋`.
* `strings.ToLower` is modelled per character with `Char.toLower`
  (ASCII letters; all strings appearing in the factor table are ASCII).
* Go's `int64(x)` conversion truncates toward zero; on the branch
  `x < 0` of `mathRound` the argument `x - 0.5` is negative, so the
  truncation is `⌈x - 1/2⌉`, and on the other branch `x + 0.5 ≥ 0`, so it
  is `⌊x + 1/2⌋`.
* The SQL filter `date BETWEEN from AND to` compares the stored
  timestamps themselves, which is `from ≤ date ∧ date ≤ to` on the
  rational timestamps.
* A Go `map[string]float64` is modelled as a total function `String → ℚ`
  (a missing key reads as `0`, exactly as in Go).
-/
import Mathlib

/-- Model of `strings.ToLower` (per-character lowercasing). -/
def lowerStr (s : String) : String := ⟨s.data.map Char.toLower⟩

/-- Model of `mathRound` (main.go:316-319):
`if x < 0 { return float64(int64(x-0.5)) }; return float64(int64(x+0.5))`,
with `int64` truncation toward zero expressed by `⌈·⌉` / `⌊·⌋` on the
respective sign ranges. -/
def mathRound (x : ℚ) : ℚ :=
  if x < 0 then ((⌈x - 1/2⌉ : ℤ) : ℚ) else ((⌊x + 1/2⌋ : ℤ) : ℚ)

/-- Model of `round2` (main.go:303-305): `mathRound(v*100.0) / 100.0`. -/
def round2 (v : ℚ) : ℚ := mathRound (v * 100) / 100

/-- Model of `roundMap` (main.go:307-313): pointwise `round2` over the
category map. -/
def roundMap (m : String → ℚ) : String → ℚ := fun k => round2 (m k)

/-- Model of `computeEmission` (main.go:222-290).  The factor constants,
the lowercasing of the three string arguments and the category/type
switch are transcribed directly; a `switch` that falls through returns
the final `0.0`.  The `meta` argument is accepted and never used, as in
the source. -/
def computeEmission (category typ : String) (qty : ℚ) (unit : String)
    (meta : List (String × String)) : ℚ :=
  let carPerKm : ℚ := 0.192
  let busPerKm : ℚ := 0.105
  let trainPerKm : ℚ := 0.041
  let airPerKm : ℚ := 0.255
  let kWhFactor : ℚ := 0.7
  let lpgKgFactor : ℚ := 3.0
  let meatHeavy : ℚ := 7.0
  let vegetarian : ℚ := 3.0
  let vegan : ℚ := 2.0
  let shoppingFactorPerThousand : ℚ := 1.5
  let category := lowerStr category
  let typ := lowerStr typ
  let unit := lowerStr unit
  if category = "transport" then
    if typ = "car" then round2 (qty * carPerKm)
    else if typ = "bus" then round2 (qty * busPerKm)
    else if typ = "train" then round2 (qty * trainPerKm)
    else if typ = "bike" ∨ typ = "walk" then 0
    else if typ = "flight" then round2 (qty * airPerKm)
    else 0
  else if category = "energy" then
    if typ = "electricity" then round2 (qty * kWhFactor)
    else if typ = "lpg" then round2 (qty * lpgKgFactor)
    else 0
  else if category = "food" then
    if typ = "meat_heavy_day" then meatHeavy
    else if typ = "vegetarian_day" then vegetarian
    else if typ = "vegan_day" then vegan
    else 0
  else if category = "shopping" then
    round2 (qty / 1000 * shoppingFactorPerThousand)
  else if category = "other" then
    if unit = "kgco2e" ∨ unit = "kg" then round2 qty else 0
  else 0

/-- The (category, type) pairs carrying an entry in the factor table of
`computeEmission` (after lowercasing): the listed transport / energy /
food types, and any type for the `shopping` and `other` categories. -/
def knownPair (category typ : String) : Prop :=
  let c := lowerStr category
  let t := lowerStr typ
  (c = "transport" ∧ t ∈ (["car", "bus", "train", "bike", "walk", "flight"] : List String)) ∨
  (c = "energy" ∧ t ∈ (["electricity", "lpg"] : List String)) ∨
  (c = "food" ∧ t ∈ (["meat_heavy_day", "vegetarian_day", "vegan_day"] : List String)) ∨
  c = "shopping" ∨ c = "other"

instance (category typ : String) : Decidable (knownPair category typ) := by
  unfold knownPair
  exact inferInstance

/-- Model of the stored `Activity` record (main.go:24-34); the `ID` and
`CreatedAt` bookkeeping columns are irrelevant to the claims and omitted.
`meta` holds the already-marshalled extra fields. -/
structure Activity where
  category : String
  type : String
  quantity : ℚ
  unit : String
  meta : List (String × String)
  emissionKg : ℚ
  date : ℚ

/-- Model of `CreateActivityDTO` (main.go:36-43).  The `date` string has
already passed the HTTP layer's parse: `none` models a blank date
(defaulted to `time.Now()`), `some d` a parsed `YYYY-MM-DD` midnight
day number; an unparsable date is rejected upstream with a 400 and never
reaches record construction. -/
structure CreateActivityDTO where
  category : String
  type : String
  quantity : ℚ
  unit : String
  meta : List (String × String)
  date : Option ℤ

/-- Model of one `by_day` point (main.go:53-56); the formatted date is
the calendar day number. -/
structure DailyPoint where
  date : ℤ
  kg : ℚ
deriving DecidableEq

/-- Model of `SummaryResponse` (main.go:45-51). -/
structure SummaryResponse where
  fromDay : ℤ
  toDay : ℤ
  totalKg : ℚ
  byCategory : String → ℚ
  byDay : List DailyPoint

/-- Model of the record construction in `createActivity`
(main.go:104-148): the stored date defaults to `now` when the request
date is blank, and `EmissionKg` is `computeEmission` over the four
payload fields plus `meta`, computed once at write time. -/
def createActivity (now : ℚ) (dto : CreateActivityDTO) : Activity :=
  let d : ℚ :=
    match dto.date with
    | none => now
    | some day => (day : ℚ)
  ⟨dto.category, dto.type, dto.quantity, dto.unit, dto.meta,
    computeEmission dto.category dto.type dto.quantity dto.unit dto.meta, d⟩

/-- Model of the `summary` record fetch (main.go:186):
`WHERE date BETWEEN lo AND hi` on the stored timestamps. -/
def filterRange (lo hi : ℚ) (items : List Activity) : List Activity :=
  items.filter fun a => decide (lo ≤ a.date ∧ a.date ≤ hi)

/-- Sum of `emission_kg` over a list of records (the `total` accumulator
of main.go:195-196). -/
def totalOf (items : List Activity) : ℚ :=
  (items.map Activity.emissionKg).sum

/-- Per-category accumulation (the `byCat` map of main.go:191,197): the
value the map holds at key `c`. -/
def catSum (items : List Activity) (c : String) : ℚ :=
  totalOf (items.filter fun a => a.category == c)

/-- The `Format("2006-01-02")` key of a stored timestamp: its calendar
day. -/
def dayKey (t : ℚ) : ℤ := ⌊t⌋

/-- Per-day accumulation (the `byDay` map of main.go:193,198-199): the
value the map holds at day `d` (0 when no record maps there, as for a
missing Go map key). -/
def daySum (items : List Activity) (d : ℤ) : ℚ :=
  totalOf (items.filter fun a => dayKey a.date == d)

/-- The categories present in a record list, in first-occurrence order
(the key set of the `byCat` map). -/
def catsOf (items : List Activity) : List String :=
  (items.map Activity.category).dedup

/-- Model of the day-stepping loop header of main.go:204:
`for d := from; !d.After(to); d = d.AddDate(0, 0, 1)` — the visited
loop values. -/
def daysFrom (s e : ℚ) : List ℚ :=
  if s ≤ e then s :: daysFrom (s + 1) e else []
termination_by (⌊e - s⌋ + 1).toNat
decreasing_by
  have h0 : (0 : ℚ) ≤ e - s := by linarith
  have h1 : (0 : ℤ) ≤ ⌊e - s⌋ := Int.floor_nonneg.mpr h0
  have h2 : ⌊e - (s + 1)⌋ = ⌊e - s⌋ - 1 := by
    rw [show e - (s + 1) = (e - s) - ((1 : ℤ) : ℚ) by push_cast; ring,
      Int.floor_sub_int]
  omega

/-- Model of the `summary` handler core (main.go:185-216): fetch the
records in range, accumulate `total` / `byCat` / `byDay`, walk the days
of the range to build the dense point list, and respond with the rounded
total, the pointwise-rounded category map and the raw per-day points. -/
def summary (lo hi : ℚ) (items : List Activity) : SummaryResponse :=
  let filtered := filterRange lo hi items
  ⟨⌊lo⌋, ⌊hi⌋,
   round2 (totalOf filtered),
   roundMap (catSum filtered),
   (daysFrom lo hi).map fun d => ⟨dayKey d, daySum filtered (dayKey d)⟩⟩

/-- Comparator written from the spec's words, for the claim that `round2`
is not truncation: drop everything beyond the second decimal (truncation
toward zero). -/
def truncate2 (v : ℚ) : ℚ :=
  (if v * 100 < 0 then ((⌈v * 100⌉ : ℤ) : ℚ) else ((⌊v * 100⌋ : ℤ) : ℚ)) / 100

/-- Comparator written from the spec's words, for the claim that `round2`
is not banker's rounding: round to 2 decimals with ties to the even
hundredth. -/
def bankers2 (v : ℚ) : ℚ :=
  (if v * 100 - ⌊v * 100⌋ = 1/2 then
    (if 2 ∣ ⌊v * 100⌋ then ((⌊v * 100⌋ : ℤ) : ℚ) else ((⌊v * 100⌋ + 1 : ℤ) : ℚ))
   else ((⌊v * 100 + 1/2⌋ : ℤ) : ℚ)) / 100

/-- A record whose request carried a blank date and was therefore stamped
with `time.Now()` — here noon of day 1 — used to exhibit the boundary
behaviour of the summary range filter. -/
def noonActivity : Activity :=
  ⟨"transport", "car", 20, "km", [], 3.84, 3/2⟩

/-- A stored record whose `emission_kg` is 0.008 = 1/125, a value with
more than two decimal places, used to exhibit which summary outputs are
rounded and which are not. -/
def eighthActivity : Activity :=
  ⟨"other", "misc", 0.008, "kgco2e", [], 1/125, 0⟩

/-! ## Helper lemmas about the rounding helpers -/

theorem mathRound_nearest (m : ℤ) (x : ℚ) (h1 : (m : ℚ) - 1/2 < x) (h2 : x < m + 1/2) :
    mathRound x = (m : ℚ) := by
  unfold mathRound
  split_ifs with hx
  · have h : ⌈x - 1/2⌉ = m := by
      rw [Int.ceil_eq_iff]
      exact ⟨by linarith, by linarith⟩
    exact_mod_cast h
  · have h : ⌊x + 1/2⌋ = m := by
      rw [Int.floor_eq_iff]
      exact ⟨by linarith, by linarith⟩
    exact_mod_cast h

theorem round2_eq (v : ℚ) (m : ℤ) (h1 : (m : ℚ) - 1/2 < v * 100) (h2 : v * 100 < m + 1/2) :
    round2 v = (m : ℚ) / 100 := by
  rw [round2, mathRound_nearest m _ h1 h2]

theorem mathRound_tie (m : ℤ) :
    mathRound ((m : ℚ) + 1/2) = ((if 0 ≤ m then m + 1 else m : ℤ) : ℚ) := by
  unfold mathRound
  split_ifs with hx hm hm
  · exfalso
    have : (0 : ℚ) ≤ m := by exact_mod_cast hm
    linarith
  · have h : ⌈(m : ℚ) + 1/2 - 1/2⌉ = m := by
      rw [show (m : ℚ) + 1/2 - 1/2 = (m : ℚ) by ring, Int.ceil_intCast]
    exact_mod_cast h
  · have h : ⌊(m : ℚ) + 1/2 + 1/2⌋ = m + 1 := by
      rw [show (m : ℚ) + 1/2 + 1/2 = ((m + 1 : ℤ) : ℚ) by push_cast; ring, Int.floor_intCast]
    exact_mod_cast h
  · exfalso
    have hm' : m ≤ -1 := by omega
    have : (m : ℚ) ≤ -1 := by exact_mod_cast hm'
    apply hx
    linarith

theorem abs_mathRound_sub (x : ℚ) : |mathRound x - x| ≤ 1/2 := by
  unfold mathRound
  rw [abs_le]
  split_ifs with hx
  · constructor
    · have := Int.le_ceil (x - 1/2)
      push_cast at this ⊢
      linarith
    · have := Int.ceil_lt_add_one (x - 1/2)
      push_cast at this ⊢
      linarith
  · constructor
    · have := Int.lt_floor_add_one (x + 1/2)
      push_cast at this ⊢
      linarith
    · have := Int.floor_le (x + 1/2)
      push_cast at this ⊢
      linarith

theorem abs_round2_sub (v : ℚ) : |round2 v - v| ≤ 1/200 := by
  have h := abs_mathRound_sub (v * 100)
  rw [round2, show mathRound (v * 100) / 100 - v = (mathRound (v * 100) - v * 100) / 100 by ring,
    abs_div]
  rw [show |(100 : ℚ)| = 100 by norm_num]
  linarith

theorem round2_den (v : ℚ) : ∃ n : ℤ, round2 v = (n : ℚ) / 100 := by
  unfold round2 mathRound
  split_ifs
  · exact ⟨_, rfl⟩
  · exact ⟨_, rfl⟩

theorem round2_zero : round2 0 = 0 := by
  rw [round2, mathRound, if_neg (by norm_num)]
  norm_num

/-! ## Helper lemmas about the summary aggregator -/

theorem daysFrom_cons {s e : ℚ} (h : s ≤ e) : daysFrom s e = s :: daysFrom (s + 1) e := by
  rw [daysFrom, if_pos h]

theorem daysFrom_nil {s e : ℚ} (h : ¬ s ≤ e) : daysFrom s e = [] := by
  rw [daysFrom, if_neg h]

theorem daysFrom_intCast (n : ℕ) : ∀ a b : ℤ, (b - a + 1).toNat = n →
    daysFrom (a : ℚ) (b : ℚ) = (List.range n).map (fun i : ℕ => ((a + (i : ℤ) : ℤ) : ℚ)) := by
  induction n with
  | zero =>
    intro a b h
    rw [daysFrom_nil (by rw [not_le]; exact_mod_cast (by omega : b < a))]
    rfl
  | succ n ih =>
    intro a b h
    rw [daysFrom_cons (by exact_mod_cast (by omega : a ≤ b) : (a : ℚ) ≤ (b : ℚ))]
    rw [show ((a : ℚ) + 1) = ((a + 1 : ℤ) : ℚ) by push_cast; ring]
    rw [ih (a + 1) b (by omega)]
    rw [List.range_succ_eq_map]
    simp only [List.map_cons, List.map_map]
    congr 1
    · push_cast
      ring
    · apply List.map_congr_left
      intro i _
      simp only [Function.comp_apply]
      push_cast
      ring

theorem filterRange_nil_of_lt {lo hi : ℚ} (h : hi < lo) (items : List Activity) :
    filterRange lo hi items = [] := by
  rw [filterRange, List.filter_eq_nil_iff]
  intro a _
  simp only [decide_eq_true_eq, not_and, not_le]
  intro h1
  linarith

theorem totalOf_cons (x : Activity) (l : List Activity) :
    totalOf (x :: l) = x.emissionKg + totalOf l := by
  simp [totalOf]

theorem catSum_cons (x : Activity) (l : List Activity) (c : String) :
    catSum (x :: l) c = (if x.category = c then x.emissionKg else 0) + catSum l c := by
  simp only [catSum, List.filter_cons]
  split_ifs with h1 h2 h2
  · rw [totalOf_cons]
  · simp only [beq_iff_eq] at h1
    exact absurd h1 h2
  · simp only [beq_iff_eq] at h1
    exact absurd h2 h1
  · rw [zero_add]

theorem sum_catSum (items : List Activity) (s : Finset String)
    (hcov : ∀ x ∈ items, x.category ∈ s) :
    (∑ c ∈ s, catSum items c) = totalOf items := by
  induction items with
  | nil => simp [catSum, totalOf]
  | cons x l ih =>
    have hx : x.category ∈ s := hcov x (by simp)
    have hl : ∀ y ∈ l, y.category ∈ s := fun y hy => hcov y (by simp [hy])
    simp only [catSum_cons]
    rw [Finset.sum_add_distrib, ih hl, Finset.sum_ite_eq s x.category (fun _ => x.emissionKg),
      if_pos hx, totalOf_cons]

/-! ## Claims -/

/-- C1: for every (category, type) pair in the factor table with a
per-unit factor, `computeEmission` returns `quantity * factor` rounded to
2 decimal places (shopping uses 1.5 per 1000 currency units, i.e.
`quantity / 1000 * 1.5`, for any type string); the flat-rate food types
ignore the quantity and return the constants 7.0 / 3.0 / 2.0; transport
bike and walk return 0 for every quantity; and on the spec's concrete
examples, 20 km by car gives 3.84 and a spend of 2000 gives 3.0. -/
theorem computeEmission_factor_table :
    ∀ (q : ℚ) (u t : String) (m : List (String × String)),
      computeEmission "transport" "car" q u m = round2 (q * 0.192) ∧
      computeEmission "transport" "bus" q u m = round2 (q * 0.105) ∧
      computeEmission "transport" "train" q u m = round2 (q * 0.041) ∧
      computeEmission "transport" "flight" q u m = round2 (q * 0.255) ∧
      computeEmission "energy" "electricity" q u m = round2 (q * 0.7) ∧
      computeEmission "energy" "lpg" q u m = round2 (q * 3.0) ∧
      computeEmission "shopping" t q u m = round2 (q / 1000 * 1.5) ∧
      computeEmission "food" "meat_heavy_day" q u m = 7.0 ∧
      computeEmission "food" "vegetarian_day" q u m = 3.0 ∧
      computeEmission "food" "vegan_day" q u m = 2.0 ∧
      computeEmission "transport" "bike" q u m = 0 ∧
      computeEmission "transport" "walk" q u m = 0 ∧
      computeEmission "transport" "car" (20 : ℚ) "km" [] = 3.84 ∧
      computeEmission "shopping" "shopping" (2000 : ℚ) "" [] = 3 := by
  have h384 : round2 ((20 : ℚ) * 0.192) = 3.84 := by
    have := round2_eq ((20 : ℚ) * 0.192) 384 (by norm_num) (by norm_num)
    rw [this]
    norm_num
  have h3 : round2 ((2000 : ℚ) / 1000 * 1.5) = 3 := by
    have := round2_eq ((2000 : ℚ) / 1000 * 1.5) 300 (by norm_num) (by norm_num)
    rw [this]
    norm_num
  intro q u t m
  refine ⟨?_, ?_, ?_, ?_, ?_, ?_, ?_, ?_, ?_, ?_, ?_, ?_, ?_, ?_⟩ <;>
    simp +decide [computeEmission, h384, h3]

/-- C2: `computeEmission` is a total function (it is a Lean `def`, so it
returns a value on every input), and for every (category, type) pair
outside the factor table — `knownPair` — the result is exactly 0,
whatever the unit and quantity. -/
theorem computeEmission_unknown_zero (c t u : String) (q : ℚ)
    (m : List (String × String)) (h : ¬ knownPair c t) :
    computeEmission c t q u m = 0 := by
  simp only [knownPair, List.mem_cons, List.not_mem_nil, or_false, List.mem_singleton] at h
  push_neg at h
  simp only [computeEmission]
  split_ifs <;> simp_all

/-- C2 witness: the unrecognized pair ("groceries", "apples") yields 0. -/
theorem computeEmission_unknown_zero_check :
    ¬ knownPair "groceries" "apples" ∧
    computeEmission "groceries" "apples" 5 "kg" [] = 0 :=
  ⟨by decide, computeEmission_unknown_zero "groceries" "apples" "kg" 5 [] (by decide)⟩

/-- C3: for category "other" the result is `round2 quantity` exactly when
the lowercased unit is "kg" or "kgco2e" and 0 for every other unit; for
every category whose lowercasing is not "other", the result does not
depend on the unit argument at all. -/
theorem computeEmission_other_unit :
    (∀ (t : String) (q : ℚ) (u : String) (m : List (String × String)),
      computeEmission "other" t q u m =
        if lowerStr u = "kg" ∨ lowerStr u = "kgco2e" then round2 q else 0) ∧
    (∀ (c t : String) (q : ℚ) (u₁ u₂ : String) (m : List (String × String)),
      lowerStr c ≠ "other" →
        computeEmission c t q u₁ m = computeEmission c t q u₂ m) := by
  constructor
  · intro t q u m
    by_cases h1 : lowerStr u = "kg" <;> by_cases h2 : lowerStr u = "kgco2e" <;>
      simp +decide [computeEmission, h1, h2]
  · intro c t q u₁ u₂ m h
    simp only [computeEmission]
    split_ifs <;> simp_all

/-- C3 witness: a transport computation is unchanged when the unit flips
from "km" to "miles". -/
theorem computeEmission_other_unit_check :
    computeEmission "transport" "car" 20 "km" [] =
      computeEmission "transport" "car" 20 "miles" [] :=
  computeEmission_other_unit.2 "transport" "car" 20 "km" "miles" [] (by decide)

/-- C4: `round2` rounds to 2 decimal places half away from zero: at every
tie point (an odd multiple of 1/200) it rounds up in magnitude for
nonnegative inputs and down (more negative) for negative ones, so
`round2 1.005 = 1.01` and `round2 (-1.005) = -1.01`; at 1.005 it
disagrees with both truncation and banker's rounding; and every value
`computeEmission` returns is an integer number of hundredths, i.e. is
already rounded to 2 decimal places. -/
theorem round2_half_away_from_zero :
    (∀ m : ℤ, round2 (((2 * m + 1 : ℤ) : ℚ) / 200) =
      (if 0 ≤ m then ((m + 1 : ℤ) : ℚ) else (m : ℚ)) / 100) ∧
    round2 1.005 = 1.01 ∧ round2 (-1.005) = -1.01 ∧
    truncate2 1.005 ≠ round2 1.005 ∧ bankers2 1.005 ≠ round2 1.005 ∧
    (∀ (c t : String) (q : ℚ) (u : String) (m : List (String × String)),
      ∃ n : ℤ, computeEmission c t q u m = (n : ℚ) / 100) := by
  have tie : ∀ m : ℤ, round2 (((2 * m + 1 : ℤ) : ℚ) / 200) =
      (if 0 ≤ m then ((m + 1 : ℤ) : ℚ) else (m : ℚ)) / 100 := by
    intro m
    rw [round2, show ((2 * m + 1 : ℤ) : ℚ) / 200 * 100 = (m : ℚ) + 1/2 by push_cast; ring,
      mathRound_tie]
    split_ifs with hm
    · push_cast
      ring
    · ring
  have e1 : round2 1.005 = 1.01 := by
    have := tie 100
    rw [show ((2 * (100 : ℤ) + 1 : ℤ) : ℚ) / 200 = 1.005 by norm_num] at this
    rw [this]
    norm_num
  have e2 : round2 (-1.005) = -1.01 := by
    have := tie (-101)
    rw [show ((2 * (-101 : ℤ) + 1 : ℤ) : ℚ) / 200 = -1.005 by norm_num] at this
    rw [this]
    norm_num
  refine ⟨tie, e1, e2, ?_, ?_, ?_⟩
  · rw [e1, truncate2, show (1.005 : ℚ) * 100 = 100.5 by norm_num, if_neg (by norm_num)]
    norm_num
  · rw [e1, bankers2, show (1.005 : ℚ) * 100 = 100.5 by norm_num]
    have hf : ⌊(100.5 : ℚ)⌋ = 100 := by norm_num [Int.floor_eq_iff]
    rw [hf, if_pos (by norm_num), if_pos (by norm_num)]
    norm_num
  · intro c t q u m
    simp only [computeEmission]
    split_ifs <;>
      first
        | exact round2_den _
        | (refine ⟨0, ?_⟩; norm_num; done)
        | (refine ⟨700, ?_⟩; norm_num; done)
        | (refine ⟨300, ?_⟩; norm_num; done)
        | (refine ⟨200, ?_⟩; norm_num; done)

/-- C5: `computeEmission` is case-insensitive in its three string inputs:
any two spellings of category, type and unit that agree after
lowercasing — in particular a mixed-case spelling and its all-lowercase
form — give the same result. -/
theorem computeEmission_case_insensitive (c₁ c₂ t₁ t₂ u₁ u₂ : String) (q : ℚ)
    (m : List (String × String)) (hc : lowerStr c₁ = lowerStr c₂)
    (ht : lowerStr t₁ = lowerStr t₂) (hu : lowerStr u₁ = lowerStr u₂) :
    computeEmission c₁ t₁ q u₁ m = computeEmission c₂ t₂ q u₂ m := by
  simp only [computeEmission]
  rw [hc, ht, hu]

/-- C5 witness: "Transport"/"CAR"/"KM" computes the same value as the
all-lowercase "transport"/"car"/"km". -/
theorem computeEmission_case_insensitive_check :
    computeEmission "Transport" "CAR" 20 "KM" [] =
      computeEmission "transport" "car" 20 "km" [] :=
  computeEmission_case_insensitive "Transport" "transport" "CAR" "car" "KM" "km" 20 []
    (by decide) (by decide) (by decide)

/-- C6: for integer (midnight) bounds, the summary's by_day series is
dense and gap-free — exactly one point per calendar day from `from` to
`to` inclusive, in ascending order, each carrying the per-day sum of
`emission_kg` over the filtered records (0 for days without records) —
and when `from > to`, the day-stepping loop never runs, so by_day is
empty and total_kg is 0. -/
theorem summary_byDay_dense (a b : ℤ) (items : List Activity) :
    (summary (a : ℚ) (b : ℚ) items).byDay =
      (List.range (b - a + 1).toNat).map
        (fun i : ℕ => ⟨a + (i : ℤ),
          daySum (filterRange (a : ℚ) (b : ℚ) items) (a + (i : ℤ))⟩) ∧
    ((b : ℚ) < (a : ℚ) →
      (summary (a : ℚ) (b : ℚ) items).byDay = [] ∧
      (summary (a : ℚ) (b : ℚ) items).totalKg = 0) := by
  have hby : (summary (a : ℚ) (b : ℚ) items).byDay =
      (daysFrom (a : ℚ) (b : ℚ)).map
        (fun d => ⟨dayKey d, daySum (filterRange (a : ℚ) (b : ℚ) items) (dayKey d)⟩) := rfl
  constructor
  · rw [hby, daysFrom_intCast _ a b rfl, List.map_map]
    apply List.map_congr_left
    intro i _
    simp only [Function.comp_apply, dayKey, Int.floor_intCast]
  · intro hba
    constructor
    · rw [hby, daysFrom_nil (not_le.mpr hba)]
      rfl
    · show round2 (totalOf (filterRange (a : ℚ) (b : ℚ) items)) = 0
      rw [filterRange_nil_of_lt hba]
      exact round2_zero

/-- C6 witness: with `from = 7` after `to = 4`, by_day is empty and the
total is 0. -/
theorem summary_byDay_dense_check :
    (summary ((7 : ℤ) : ℚ) ((4 : ℤ) : ℚ) []).byDay = [] ∧
    (summary ((7 : ℤ) : ℚ) ((4 : ℤ) : ℚ) []).totalKg = 0 :=
  (summary_byDay_dense 7 4 []).2 (by norm_num)

/-- C7: the summary's total_kg is the sum of emission_kg rounded to 2
decimals after summation, each by_category bucket is its per-category sum
rounded independently, and the by_category values summed over the
categories present differ from total_kg by at most 0.01 per category
present. -/
theorem summary_rounding_consistency (lo hi : ℚ) (items : List Activity) :
    (summary lo hi items).totalKg = round2 (totalOf (filterRange lo hi items)) ∧
    (∀ c, (summary lo hi items).byCategory c = round2 (catSum (filterRange lo hi items) c)) ∧
    |((catsOf (filterRange lo hi items)).map ((summary lo hi items).byCategory)).sum -
        (summary lo hi items).totalKg| ≤
      ((catsOf (filterRange lo hi items)).length : ℚ) / 100 := by
  set L := filterRange lo hi items with hL
  have htot : (summary lo hi items).totalKg = round2 (totalOf L) := rfl
  have hcat : ∀ c, (summary lo hi items).byCategory c = round2 (catSum L c) := fun c => rfl
  refine ⟨htot, hcat, ?_⟩
  by_cases hnil : L = []
  · simp [hnil, catsOf, htot, hcat, totalOf, round2_zero]
  · have hnodup : (catsOf L).Nodup := List.nodup_dedup _
    have hcov : ∀ x ∈ L, x.category ∈ (catsOf L).toFinset := by
      intro x hx
      rw [List.mem_toFinset]
      simp only [catsOf, List.mem_dedup, List.mem_map]
      exact ⟨x, hx, rfl⟩
    have hpart : (∑ c ∈ (catsOf L).toFinset, catSum L c) = totalOf L :=
      sum_catSum L _ hcov
    have hlist : ((catsOf L).map ((summary lo hi items).byCategory)).sum =
        ∑ c ∈ (catsOf L).toFinset, round2 (catSum L c) := by
      rw [List.sum_toFinset _ hnodup]
      apply congrArg
      exact List.map_congr_left fun c _ => hcat c
    have hcard : (catsOf L).toFinset.card = (catsOf L).length :=
      List.toFinset_card_of_nodup hnodup
    have hn1 : 1 ≤ (catsOf L).length := by
      rcases List.length_pos.mpr (by simpa [catsOf, List.dedup_eq_nil] using hnil :
        catsOf L ≠ []) with h
      omega
    rw [hlist, htot]
    have step1 : (∑ c ∈ (catsOf L).toFinset, round2 (catSum L c)) - round2 (totalOf L) =
        (∑ c ∈ (catsOf L).toFinset, (round2 (catSum L c) - catSum L c)) +
          (totalOf L - round2 (totalOf L)) := by
      rw [Finset.sum_sub_distrib, hpart]
      ring
    rw [step1]
    have h2 := abs_add (∑ c ∈ (catsOf L).toFinset, (round2 (catSum L c) - catSum L c))
      (totalOf L - round2 (totalOf L))
    have h3 : |∑ c ∈ (catsOf L).toFinset, (round2 (catSum L c) - catSum L c)| ≤
        ((catsOf L).toFinset.card : ℚ) * (1/200) := by
      calc |∑ c ∈ (catsOf L).toFinset, (round2 (catSum L c) - catSum L c)|
          ≤ ∑ c ∈ (catsOf L).toFinset, |round2 (catSum L c) - catSum L c| :=
            Finset.abs_sum_le_sum_abs _ _
        _ ≤ (catsOf L).toFinset.card • (1/200 : ℚ) :=
            Finset.sum_le_card_nsmul _ _ _ fun c _ => abs_round2_sub _
        _ = ((catsOf L).toFinset.card : ℚ) * (1/200) := by rw [nsmul_eq_mul]
    have h4 : |totalOf L - round2 (totalOf L)| ≤ 1/200 := by
      rw [abs_sub_comm]
      exact abs_round2_sub _
    have hfin : ((catsOf L).toFinset.card : ℚ) * (1/200) + 1/200 ≤
        ((catsOf L).length : ℚ) / 100 := by
      rw [hcard]
      have : (1 : ℚ) ≤ ((catsOf L).length : ℚ) := by exact_mod_cast hn1
      ring_nf
      nlinarith
    linarith

/-- C8: the code contradicts the day-granularity contract.  A record
created with a blank date is stamped with the full `time.Now()`
timestamp (here noon of day 1, modelled as 3/2); its calendar day is 1,
inside the summary range [0, 1], yet the `BETWEEN` filter compares the
raw timestamps, so `3/2 ≤ 1` fails and the record is excluded from
total_kg, by_category and by_day — the summary reports all zeros while
the record carries 3.84 kg. -/
theorem summary_boundary_time_of_day_exclusion :
    dayKey noonActivity.date = 1 ∧ noonActivity.emissionKg = 3.84 ∧
    (summary 0 1 [noonActivity]).totalKg = 0 ∧
    (summary 0 1 [noonActivity]).byDay = [⟨0, 0⟩, ⟨1, 0⟩] ∧
    (summary 0 1 [noonActivity]).byCategory "transport" = 0 := by
  have hfil : filterRange 0 1 [noonActivity] = [] := by
    simp only [filterRange, List.filter, noonActivity]
    norm_num
  refine ⟨?_, rfl, ?_, ?_, ?_⟩
  · show (⌊(3/2 : ℚ)⌋ : ℤ) = 1
    norm_num [Int.floor_eq_iff]
  · show round2 (totalOf (filterRange 0 1 [noonActivity])) = 0
    rw [hfil]
    exact round2_zero
  · have hby : (summary 0 1 [noonActivity]).byDay =
        (daysFrom (0 : ℚ) 1).map
          (fun d => (⟨dayKey d, daySum (filterRange 0 1 [noonActivity]) (dayKey d)⟩ :
            DailyPoint)) := rfl
    rw [hby, daysFrom_cons (by norm_num), daysFrom_cons (by norm_num),
      daysFrom_nil (by norm_num), hfil]
    simp [dayKey, daySum, totalOf]
  · show round2 (catSum (filterRange 0 1 [noonActivity]) "transport") = 0
    rw [hfil]
    simpa [catSum, totalOf] using round2_zero

/-- C9: the stored emission_kg is a pure deterministic function of the
four payload fields (category, type, quantity, unit): two creation calls
agreeing on them produce the same emission_kg whatever their meta, date
and creation instant, and `computeEmission` is independent of its meta
argument. -/
theorem createActivity_emission_deterministic :
    (∀ (now₁ now₂ : ℚ) (dto₁ dto₂ : CreateActivityDTO),
        dto₁.category = dto₂.category → dto₁.type = dto₂.type →
        dto₁.quantity = dto₂.quantity → dto₁.unit = dto₂.unit →
        (createActivity now₁ dto₁).emissionKg = (createActivity now₂ dto₂).emissionKg) ∧
    (∀ (c t : String) (q : ℚ) (u : String) (m₁ m₂ : List (String × String)),
        computeEmission c t q u m₁ = computeEmission c t q u m₂) := by
  constructor
  · intro now₁ now₂ dto₁ dto₂ h1 h2 h3 h4
    show computeEmission dto₁.category dto₁.type dto₁.quantity dto₁.unit dto₁.meta =
      computeEmission dto₂.category dto₂.type dto₂.quantity dto₂.unit dto₂.meta
    rw [h1, h2, h3, h4]
    rfl
  · intro c t q u m₁ m₂
    rfl

/-- C9 witness: two requests with the same four payload fields but
different meta, date and creation instants store the same emission. -/
theorem createActivity_emission_deterministic_check :
    (createActivity 0 ⟨"transport", "car", 20, "km", [("note", "morning")], some 5⟩).emissionKg =
      (createActivity (3/2) ⟨"transport", "car", 20, "km", [], none⟩).emissionKg :=
  createActivity_emission_deterministic.1 0 (3/2)
    ⟨"transport", "car", 20, "km", [("note", "morning")], some 5⟩
    ⟨"transport", "car", 20, "km", [], none⟩ rfl rfl rfl rfl

/-- C10: each by_day point carries the exact, unrounded per-day sum of
emission_kg over the filtered records — no 2-decimal rounding is applied
to the per-day series; concretely, a record with emission 1/125 = 0.008
appears in by_day as 0.008 (which `round2` would have turned into 0.01)
while the same summary's total_kg is the rounded 0.01. -/
theorem summary_byDay_unrounded :
    (∀ (lo hi : ℚ) (items : List Activity) (p : DailyPoint),
        p ∈ (summary lo hi items).byDay →
          p.kg = daySum (filterRange lo hi items) p.date) ∧
    (summary 0 0 [eighthActivity]).byDay = [⟨0, 1/125⟩] ∧
    round2 (1/125) ≠ 1/125 ∧
    (summary 0 0 [eighthActivity]).totalKg = 1/100 := by
  have hfil : filterRange 0 0 [eighthActivity] = [eighthActivity] := by
    simp [filterRange, List.filter, eighthActivity]
  have hr : round2 (1/125 : ℚ) = 1/100 := by
    have := round2_eq (1/125 : ℚ) 1 (by norm_num) (by norm_num)
    rw [this]
    norm_num
  refine ⟨?_, ?_, ?_, ?_⟩
  · intro lo hi items p hp
    have hby : (summary lo hi items).byDay =
        (daysFrom lo hi).map
          (fun d => ⟨dayKey d, daySum (filterRange lo hi items) (dayKey d)⟩) := rfl
    rw [hby] at hp
    obtain ⟨d, _, rfl⟩ := List.mem_map.mp hp
    rfl
  · have hby : (summary 0 0 [eighthActivity]).byDay =
        (daysFrom (0 : ℚ) 0).map
          (fun d => (⟨dayKey d, daySum (filterRange 0 0 [eighthActivity]) (dayKey d)⟩ :
            DailyPoint)) := rfl
    rw [hby, daysFrom_cons (by norm_num), daysFrom_nil (by norm_num), hfil]
    simp [dayKey, daySum, totalOf, eighthActivity]
  · rw [hr]
    norm_num
  · show round2 (totalOf (filterRange 0 0 [eighthActivity])) = 1/100
    rw [hfil]
    have : totalOf [eighthActivity] = 1/125 := by
      simp [totalOf, eighthActivity]
    rw [this, hr]

/-- C10 witness: the single by_day point of a one-record summary carries
the exact sum 1/125. -/
theorem summary_byDay_unrounded_check :
    (⟨0, 1/125⟩ : DailyPoint).kg =
      daySum (filterRange 0 0 [eighthActivity]) (⟨0, 1/125⟩ : DailyPoint).date :=
  summary_byDay_unrounded.1 0 0 [eighthActivity] ⟨0, 1/125⟩
    (by rw [summary_byDay_unrounded.2.1]; exact List.mem_singleton.mpr rfl)
